import Mathlib

/-
  Verification development for the arozx/chess repository.

  Shallow embedding of:
  - the piece move generation (the pieces module is not part of the sources;
    it is modelled from the specification, section 4.1),
  - the board and legality engine (chess_board_1.py),
  - the evaluator (eval_board.py),
  - the game adapter (chess_game_adapter.py),
  - the value object GameState (game_state.py),
  - the MCTS engine (mcts.py), with the authoritative board held in an
    explicit heap of boards so that Python aliasing is captured.

  Integers follow Python semantics: list indices may be negative (they wrap
  from the end) and an out of range index raises IndexError, modelled as
  Option.none and threaded to the nearest handler of the source.
-/

inductive Colour where
  | white
  | black
deriving DecidableEq

inductive PKind where
  | pawn
  | knight
  | bishop
  | rook
  | queen
  | king
deriving DecidableEq

structure Piece where
  kind : PKind
  colour : Colour
  first_move : Bool
deriving DecidableEq

abbrev Cell := Option Piece

abbrev Board := List (List Cell)

/-- Python list read: a nonnegative index reads directly, a negative index in
range wraps from the end, anything else raises IndexError (modelled none). -/
def pyGet {α : Type} (l : List α) (i : Int) : Option α :=
  if 0 ≤ i then l.get? i.toNat
  else if 0 ≤ i + l.length then l.get? (i + l.length).toNat
  else none

/-- Python list write, with the same index semantics as pyGet. -/
def pySet {α : Type} (l : List α) (i : Int) (a : α) : Option (List α) :=
  if 0 ≤ i then
    if i < l.length then some (l.set i.toNat a) else none
  else if 0 ≤ i + l.length then some (l.set (i + l.length).toNat a)
  else none

/-- board[x][y] in Python; none models IndexError. -/
def bGet (b : Board) (x y : Int) : Option Cell :=
  (pyGet b x).bind (fun row => pyGet row y)

/-- board[x][y] = c in Python; none models IndexError. -/
def bSet (b : Board) (x y : Int) (c : Cell) : Option Board :=
  (pyGet b x).bind (fun row =>
    (pySet row y c).bind (fun row2 => pySet b x row2))

/-- Read of a square known to be inside the 8x8 area; a missing cell of a
malformed board reads as empty.  Used by the modelled piece rules, which per
the spec validate coordinates in range before any lookup. -/
def cellAt (b : Board) (x y : Int) : Cell :=
  ((bGet b x y).getD none)

def onBoard (x y : Int) : Bool :=
  decide (0 ≤ x ∧ x < 8 ∧ 0 ≤ y ∧ y < 8)

/-- Material weights. Modelled from the spec: fixed material weight per kind
(Pawn 100, Knight 320, Bishop 330, Rook 500, Queen 900, King 20000); the
pieces module that carries the weight attribute is not among the sources. -/
def weight : PKind → Int
  | .pawn => 100
  | .knight => 320
  | .bishop => 330
  | .rook => 500
  | .queen => 900
  | .king => 20000

/-- One sliding ray.  Modelled from the spec: sliding pieces walk each
direction vector until hitting the edge, a friendly piece (stop, exclude),
or an enemy piece (stop, include as capture). -/
def slideWalk (b : Board) (me : Colour) : Nat → Int → Int → Int → Int → List (Int × Int)
  | 0, _, _, _, _ => []
  | fuel + 1, x, y, dx, dy =>
    let nx := x + dx
    let ny := y + dy
    if onBoard nx ny then
      match cellAt b nx ny with
      | none => (nx, ny) :: slideWalk b me fuel nx ny dx dy
      | some p => if p.colour = me then [] else [(nx, ny)]
    else []

def rookDirs : List (Int × Int) := [(1, 0), (-1, 0), (0, 1), (0, -1)]

def bishopDirs : List (Int × Int) := [(1, 1), (1, -1), (-1, 1), (-1, -1)]

def knightOffsets : List (Int × Int) :=
  [(2, 1), (2, -1), (-2, 1), (-2, -1), (1, 2), (1, -2), (-1, 2), (-1, -2)]

def kingOffsets : List (Int × Int) :=
  [(1, 0), (-1, 0), (0, 1), (0, -1), (1, 1), (1, -1), (-1, 1), (-1, -1)]

/-- Fixed-offset movers (knight, king).  Modelled from the spec: enumerate
the offset set, excluding off-board and friendly-occupied squares. -/
def stepMoves (b : Board) (me : Colour) (x y : Int) (offs : List (Int × Int)) :
    List (Int × Int) :=
  offs.filterMap (fun o =>
    let nx := x + o.1
    let ny := y + o.2
    if onBoard nx ny then
      match cellAt b nx ny with
      | none => some (nx, ny)
      | some p => if p.colour = me then none else some (nx, ny)
    else none)

/-- Pawn moves.  Modelled from the spec: single forward step onto an empty
square; a further double step only if the first_move flag is still set and
the intermediate and destination squares are both empty; diagonal captures
only onto squares occupied by an enemy piece.  En passant is not generated
here. -/
def pawnMoves (b : Board) (me : Colour) (fm : Bool) (x y : Int) : List (Int × Int) :=
  let d : Int := if me = .white then 1 else -1
  let fwd :=
    if onBoard (x + d) y ∧ cellAt b (x + d) y = none then [(x + d, y)] else []
  let dbl :=
    if fm ∧ onBoard (x + 2 * d) y ∧ cellAt b (x + d) y = none ∧
        cellAt b (x + 2 * d) y = none then
      [(x + 2 * d, y)]
    else []
  let caps := [(-1 : Int), 1].filterMap (fun dy =>
    let ny := y + dy
    if onBoard (x + d) ny then
      match cellAt b (x + d) ny with
      | some p => if p.colour = me then none else some (x + d, ny)
      | none => none
    else none)
  fwd ++ dbl ++ caps

/-- Modelled from the spec: pseudo_legal_destinations of the pieces module
(absent from the sources; only its tests, importers and the spec describe
it).  Pure in the board; a request outside the 8x8 range or against an empty
source square yields no moves (the callers catch the error the source
raises there). -/
def get_valid_moves (b : Board) (x y : Int) : List (Int × Int) :=
  if onBoard x y then
    match cellAt b x y with
    | none => []
    | some p =>
      match p.kind with
      | .rook => rookDirs.flatMap (fun d => slideWalk b p.colour 8 x y d.1 d.2)
      | .bishop => bishopDirs.flatMap (fun d => slideWalk b p.colour 8 x y d.1 d.2)
      | .queen =>
          (rookDirs ++ bishopDirs).flatMap (fun d => slideWalk b p.colour 8 x y d.1 d.2)
      | .knight => stepMoves b p.colour x y knightOffsets
      | .king => stepMoves b p.colour x y kingOffsets
      | .pawn => pawnMoves b p.colour p.first_move x y
  else []

def emptyBoard : Board := List.replicate 8 (List.replicate 8 (none : Cell))

/-- Helper for building concrete positions. -/
def put (b : Board) (x y : Nat) (k : PKind) (c : Colour) (fm : Bool) : Board :=
  match b.get? x with
  | some row => b.set x (row.set y (some ⟨k, c, fm⟩))
  | none => b

/-- The row-major traversal of the 8x8 coordinates, as the Python loops
for x in range(8): for y in range(8) visit them. -/
def coords8 : List (Int × Int) :=
  (List.range 8).flatMap (fun x => (List.range 8).map (fun y => ((x : Int), (y : Int))))

/-- All 64 raw reads board[x][y] the scanning loops of chess_board_1.py
perform; none models the IndexError a malformed board raises there. -/
def scan64 (b : Board) : Option (List ((Int × Int) × Cell)) :=
  coords8.mapM (fun c => (bGet b c.1 c.2).map (fun cell => (c, cell)))

/-- First King of the given colour in row-major order (the nested break of
the source finds exactly this one). -/
def find_king (cells : List ((Int × Int) × Cell)) (colour : Colour) :
    Option (Int × Int) :=
  (cells.find? (fun c =>
    match c.2 with
    | some p => decide (p.kind = .king ∧ p.colour = colour)
    | none => false)).map (fun c => c.1)

/-- ChessBoard.get_king_position: scans self.board for the King of the
given colour (an IndexError on a malformed board escapes to the caller,
modelled as none here since every caller turns it into its own default). -/
def get_king_position (b : Board) (colour : Colour) : Option (Int × Int) :=
  (scan64 b).bind (fun cells => find_king cells colour)

/-- The path walk of ChessBoard.check_position for a sliding attacker:
steps from the attacker towards the king square, requiring every strictly
intermediate square to be empty; none models the IndexError escape of a
walk that leaves the board (only possible for a misaligned pair, which the
move generator never produces). -/
def path_walk (b : Board) (kx ky dx dy : Int) : Nat → Int → Int → Option Bool
  | 0, _, _ => none
  | fuel + 1, cx, cy =>
    if cx = kx ∧ cy = ky then some true
    else
      match bGet b cx cy with
      | none => none
      | some none => path_walk b kx ky dx dy fuel (cx + dx) (cy + dy)
      | some (some _) => some false

/-- One attacker test of ChessBoard.check_position: the king square is among
the piece candidate moves and, for a sliding piece, the recomputed path is
clear (errors during the walk are swallowed by the per-piece handler). -/
def attacks_king (b : Board) (kx ky : Int) (pos : Int × Int) (p : Piece) : Bool :=
  if (kx, ky) ∈ get_valid_moves b pos.1 pos.2 then
    match p.kind with
    | .queen | .rook | .bishop =>
      let dx := (kx - pos.1).sign
      let dy := (ky - pos.2).sign
      path_walk b kx ky dx dy 8 (pos.1 + dx) (pos.2 + dy) = some true
    | _ => true
  else false

/-- ChessBoard.check_position: 1 when the given colour is in check on the
given board, 0 otherwise (also 0 when no king is found or the board shape
makes the scan raise). -/
def check_position (b : Board) (colour : Colour) : Int :=
  match scan64 b with
  | none => 0
  | some cells =>
    match find_king cells colour with
    | none => 0
    | some kp =>
      if cells.any (fun c =>
          match c.2 with
          | some p => p.colour ≠ colour && attacks_king b kp.1 kp.2 c.1 p
          | none => false) then 1
      else 0

/-- The board after the naive king relocation ChessBoard.is_checkmate tests:
a deep copy with the king cell moved, none when a write raises. -/
def king_temp (b : Board) (kp m : Int × Int) : Option Board :=
  (bGet b kp.1 kp.2).bind (fun kc =>
    (bSet b m.1 m.2 kc).bind (fun b1 => bSet b1 kp.1 kp.2 (none : Cell)))

/-- The inner scan of ChessBoard.is_checkmate over a hypothetical board:
does any enemy piece list the square pos among its candidate moves (no path
recomputation here, matching the source); none when the scan raises. -/
def square_attacked (t : Board) (colour : Colour) (pos : Int × Int) : Option Bool :=
  (scan64 t).map (fun cells =>
    cells.any (fun c =>
      match c.2 with
      | some p => p.colour ≠ colour && decide (pos ∈ get_valid_moves t c.1.1 c.1.2)
      | none => false))

/-- The king-move loop of ChessBoard.is_checkmate: true when every candidate
king move lands on an attacked square; an escape or an error returns false. -/
def km_loop (b : Board) (colour : Colour) (kp : Int × Int) :
    List (Int × Int) → Bool
  | [] => true
  | m :: rest =>
    match king_temp b kp m with
    | none => false
    | some t =>
      match square_attacked t colour m with
      | none => false
      | some true => km_loop b colour kp rest
      | some false => false

/-- ChessBoard.is_checkmate: collects the pieces attacking the king, returns
false when a friendly non-king piece has one of them among its candidate
moves (no legality or blocking analysis, as in the source), then tries only
the king moves. -/
def is_checkmate (b : Board) (colour : Colour) (kp : Int × Int) : Bool :=
  match scan64 b with
  | none => false
  | some cells =>
    let attacking : List (Int × Int) :=
      (cells.filter (fun c =>
        match c.2 with
        | some p => p.colour ≠ colour && decide (kp ∈ get_valid_moves b c.1.1 c.1.2)
        | none => false)).map (fun c => c.1)
    if cells.any (fun c =>
        match c.2 with
        | some p =>
          p.colour = colour && p.kind ≠ PKind.king &&
            attacking.any (fun ap => decide (ap ∈ get_valid_moves b c.1.1 c.1.2))
        | none => false) then false
    else
      match bGet b kp.1 kp.2 with
      | none => false
      | some none => false
      | some (some _) => km_loop b colour kp (get_valid_moves b kp.1 kp.2)

/-- ChessBoard.are_you_in_check: 0 no check, 1 check, 2 checkmate.  The king
membership test here has no path recomputation (the generator already
encodes blocking); checkmate is decided by is_checkmate as in the source. -/
def are_you_in_check (b : Board) (colour : Colour) : Int :=
  match scan64 b with
  | none => 0
  | some cells =>
    match find_king cells colour with
    | none => 0
    | some kp =>
      if cells.any (fun c =>
          match c.2 with
          | some p => p.colour ≠ colour && decide (kp ∈ get_valid_moves b c.1.1 c.1.2)
          | none => false) then
        if is_checkmate b colour kp then 2 else 1
      else 0

/-- ChessBoard.game_over: either side is reported checkmated. -/
def game_over (b : Board) : Bool :=
  are_you_in_check b .white == 2 || are_you_in_check b .black == 2

/-- The pawn test of one side of ChessBoard.enpesaunt: an enemy pawn with
its first_move flag still set sits on the adjacent file. -/
def enp_pawn (c : Cell) (colour : Colour) : Bool :=
  match c with
  | some q => q.kind = PKind.pawn && q.colour ≠ colour && q.first_move
  | none => false

/-- ChessBoard.enpesaunt: the looser adjacency test of the source.  The
second branch reads board[x][y - 1], which for y = 0 wraps to the last file
as in Python; an IndexError (y + 1 = 8, or a forward row off the board) is
caught by the handler of the source and yields false. -/
def enpesaunt (b : Board) (x y : Int) (colour : Colour) : Bool :=
  match bGet b x y with
  | some (some p) =>
    if p.kind = PKind.pawn then
      let d : Int := if colour = .white then 1 else -1
      match bGet b x (y + 1) with
      | none => false
      | some c1 =>
        if enp_pawn c1 colour then
          match bGet b (x + d) (y + 1) with
          | none => false
          | some c2 =>
            if c2 = none then true
            else enpesaunt_elif b x y colour d
        else enpesaunt_elif b x y colour d
    else false
  | _ => false
where
  /-- The elif branch of ChessBoard.enpesaunt (the y - 1 side). -/
  enpesaunt_elif (b : Board) (x y : Int) (colour : Colour) (d : Int) : Bool :=
    match bGet b x (y - 1) with
    | none => false
    | some c1 =>
      if enp_pawn c1 colour then
        match bGet b (x + d) (y - 1) with
        | none => false
        | some c2 => c2 = none
      else false

inductive Side where
  | queenside
  | kingside
deriving DecidableEq

/-- The rook test of ChessBoard.castling. -/
def castle_rook (c : Cell) : Bool :=
  match c with
  | some r => r.kind = PKind.rook && r.first_move
  | none => false

/-- The kingside half of ChessBoard.castling: rook on file 7 with its
first_move flag set and files 5 and 6 empty (only those two are checked by
the source). -/
def castling_kingside (b : Board) (king_row : Int) : Option Side :=
  match bGet b king_row 7 with
  | none => none
  | some rk =>
    if castle_rook rk then
      match bGet b king_row 5 with
      | none => none
      | some c5 =>
        if c5 = none then
          match bGet b king_row 6 with
          | none => none
          | some c6 => if c6 = none then some .kingside else none
        else none
    else none

/-- ChessBoard.castling: checks only the first_move flags of the king on
file 3 and of the rook, and the emptiness of the squares between them
(files 1 and 2, or 5 and 6); no attack or check condition at all.  none is
the false of the source, also produced by its catch-all handler. -/
def castling (b : Board) (colour : Colour) : Option Side :=
  let king_row : Int := if colour = .white then 0 else 7
  match bGet b king_row 3 with
  | none => none
  | some kc =>
    if (match kc with
        | some k => k.kind = PKind.king && k.first_move
        | none => false) then
      match bGet b king_row 0 with
      | none => none
      | some rq =>
        if castle_rook rq then
          match bGet b king_row 1 with
          | none => none
          | some c1 =>
            if c1 = none then
              match bGet b king_row 2 with
              | none => none
              | some c2 =>
                if c2 = none then some .queenside
                else castling_kingside b king_row
            else castling_kingside b king_row
        else castling_kingside b king_row
    else none

/-- ChessBoard.is_endgame: no queens, or exactly two queens with at most two
minor pieces in total. -/
def is_endgame (b : Board) : Bool :=
  let queens := coords8.countP (fun c =>
    match cellAt b c.1 c.2 with
    | some p => p.kind = PKind.queen
    | none => false)
  let minors := coords8.countP (fun c =>
    match cellAt b c.1 c.2 with
    | some p => p.kind = PKind.bishop || p.kind = PKind.knight
    | none => false)
  queens == 0 || (queens == 2 && minors ≤ 2)

def center_squares : List (Int × Int) := [(3, 3), (3, 4), (4, 3), (4, 4)]

def extended_center_squares : List (Int × Int) :=
  [(2, 2), (2, 3), (2, 4), (2, 5), (3, 2), (3, 5), (4, 2), (4, 5),
   (5, 2), (5, 3), (5, 4), (5, 5)]

/-- The ranks the passed-pawn scan of ChessBoard.evaluate_position visits:
from x + direction towards the far end, all inside 0..7. -/
def passed_ranks (x : Int) (colour : Colour) : List Int :=
  if colour = .white then
    (List.range 8).filterMap (fun r => if x < (r : Int) then some ((r : Int)) else none)
  else
    (List.range 8).filterMap (fun r =>
      if (7 - (r : Int)) < x then some (7 - (r : Int)) else none)

/-- Whether any pawn (of either colour, as in the source) sits at rank r on
one of the files y - 1, y, y + 1, with the boundary guards of the source. -/
def pawn_near (b : Board) (r y : Int) : Bool :=
  (decide (0 < y) && (match cellAt b r (y - 1) with
    | some q => q.kind = PKind.pawn
    | none => false)) ||
  (match cellAt b r y with
    | some q => q.kind = PKind.pawn
    | none => false) ||
  (decide (y < 7) && (match cellAt b r (y + 1) with
    | some q => q.kind = PKind.pawn
    | none => false))

/-- The per-square contribution of ChessBoard.evaluate_position. -/
def eval_square (b : Board) (colour : Colour) (x y : Int) : Int :=
  match cellAt b x y with
  | none => 0
  | some p =>
    let multiplier : Int := if p.colour = colour then 1 else -1
    let base := weight p.kind * multiplier
    let positional : Int :=
      match p.kind with
      | .pawn =>
        if p.colour = colour then
          let advance : Int :=
            if colour = .white then 10 * (x - 1) else 10 * (6 - x)
          let passed : Int :=
            if (passed_ranks x colour).any (fun r => pawn_near b r y) then 0 else 50
          advance + passed
        else 0
      | .knight =>
        if p.colour = colour then
          let mobility := 10 * ((get_valid_moves b x y).length : Int)
          let outpost : Int :=
            if colour = .white ∧ 3 < x then
              if decide (0 < y) && (match cellAt b (x - 1) (y - 1) with
                  | some q => q.kind = PKind.pawn && q.colour = colour
                  | none => false) then 30 else 0
            else if colour = .black ∧ x < 4 then
              if decide (0 < y) && (match cellAt b (x + 1) (y - 1) with
                  | some q => q.kind = PKind.pawn && q.colour = colour
                  | none => false) then 30 else 0
            else 0
          mobility + outpost
        else 0
      | .bishop =>
        if p.colour = colour then 8 * ((get_valid_moves b x y).length : Int) else 0
      | .rook =>
        if p.colour = colour then
          if (List.range 8).any (fun r =>
              match cellAt b (r : Int) y with
              | some q => q.kind = PKind.pawn
              | none => false) then 0 else 30
        else 0
      | .queen =>
        if p.colour = colour then 5 * ((get_valid_moves b x y).length : Int) else 0
      | .king =>
        if p.colour = colour then
          if is_endgame b then 8 * ((get_valid_moves b x y).length : Int)
          else if colour = .white ∧ x < 2 then 60
          else if colour = .black ∧ 5 < x then 60
          else 0
        else 0
    let center : Int :=
      if (x, y) ∈ center_squares then 30 * multiplier
      else if (x, y) ∈ extended_center_squares then 15 * multiplier
      else 0
    base + positional + center

/-- ChessBoard.evaluate_position: material, mobility, pawn structure, open
files, king placement and center control, summed over the whole board. -/
def evaluate_position (b : Board) (colour : Colour) : Int :=
  coords8.foldl (fun acc c => acc + eval_square b colour c.1 c.2) 0

/-- The 8x8 piece-by-piece clone move_piece and evaluate_move build before a
hypothetical move (all attributes are copied, so the clone holds the same
piece values); none models the IndexError of a malformed board. -/
def clone8 (b : Board) : Option Board :=
  (List.range 8).mapM (fun x => (List.range 8).mapM (fun y => bGet b (x : Int) (y : Int)))

/-- ChessBoard.evaluate_move: scores the position after the naive move on a
clone, then applies the opening tweaks driven by move_count and the
first_move flag of the moving piece.  none models an exception escaping to
the caller of the source. -/
def evaluate_move (mc : Int) (b : Board) (m : Int × Int × Int × Int)
    (colour : Colour) : Option Int :=
  match m with
  | (sx, sy, ex, ey) =>
    match clone8 b with
    | none => none
    | some t0 =>
      match bGet t0 sx sy with
      | none => none
      | some moving =>
        match bSet t0 ex ey moving with
        | none => none
        | some t1 =>
          match bSet t1 sx sy (none : Cell) with
          | none => none
          | some t2 =>
            let score := evaluate_position t2 colour
            match bGet b sx sy with
            | none => none
            | some pieceCell =>
              let tw1 : Int :=
                match pieceCell with
                | some p => if mc < 10 ∧ p.first_move = false then -20 else 0
                | none => 0
              let tw2 : Int :=
                match pieceCell with
                | some p =>
                  if mc < 10 ∧ (p.kind = PKind.rook ∨ p.kind = PKind.king) ∧
                      p.first_move then 30 else 0
                | none => 0
              let tw3 : Int :=
                match pieceCell with
                | some p =>
                  if p.kind = PKind.king ∧ p.first_move ∧ mc < 10 ∧
                      ¬((ey - sy).natAbs = 2) then -100 else 0
                | none => 0
              some (score + tw1 + tw2 + tw3)

/-- The mutable attributes of a ChessBoard object that move_piece touches. -/
structure CState where
  board : Board
  player_turn : Colour
  move_count : Int
  material : Int
deriving DecidableEq

/-- The turn switch of move_piece: black if the turn was white, else white. -/
def flip_turn (c : Colour) : Colour :=
  if c = .white then .black else .white

def is_pawn_cell (c : Cell) : Bool :=
  match c with
  | some q => q.kind = PKind.pawn
  | none => false

/-- The en passant removal block of move_piece: when the looser en passant
test fired, the mover is a pawn and the move spans two ranks, the first
adjacent pawn found next to the destination square is deleted (its colour
is never checked).  none models an IndexError escaping before any write
(these reads precede the first write, so the board is then untouched). -/
def enp_removal (b : Board) (x y endx endy : Int) (is_enp : Bool) : Option Board :=
  if is_enp then
    match bGet b x y with
    | none => none
    | some c =>
      if is_pawn_cell c ∧ (x - endx).natAbs = 2 then
        match bGet b endx (endy + 1) with
        | none => none
        | some c1 =>
          if is_pawn_cell c1 then bSet b endx (endy + 1) (none : Cell)
          else
            match bGet b endx (endy - 1) with
            | none => none
            | some c2 =>
              if is_pawn_cell c2 then bSet b endx (endy - 1) (none : Cell)
              else some b
      else some b
  else some b

/-- One Python assignment b[dx][dy] = b[sx][sy]. -/
def line_assign (b : Board) (dx dy sx sy : Int) : Option Board :=
  (bGet b sx sy).bind (fun c => bSet b dx dy c)

/-- The castling execution block of move_piece: when the castling test fired
and the moving piece is a rook or king, a destination file of 2 or 6
relocates the king and the matching rook; every other destination falls
through unchanged.  An error result carries the board as mutated up to the
raising line, which the catch-all handler of the source then leaves behind. -/
def castle_exec (b : Board) (x y endx endy : Int) (is_cas : Option Side) :
    Except Board Board :=
  if is_cas = none then .ok b
  else
    match bGet b x y with
    | none => .error b
    | some c =>
      if (match c with
          | some q => q.kind = PKind.rook || q.kind = PKind.king
          | none => false) then
        if endy = 2 then
          match line_assign b endx endy x y with
          | none => .error b
          | some b1 =>
            match bSet b1 x y (none : Cell) with
            | none => .error b1
            | some b2 =>
              match line_assign b2 endx 3 endx 0 with
              | none => .error b2
              | some b3 =>
                match bSet b3 endx 0 (none : Cell) with
                | none => .error b3
                | some b4 => .ok b4
        else if endy = 6 then
          match line_assign b endx endy x y with
          | none => .error b
          | some b1 =>
            match bSet b1 x y (none : Cell) with
            | none => .error b1
            | some b2 =>
              match line_assign b2 endx 5 endx 7 with
              | none => .error b2
              | some b3 =>
                match bSet b3 endx 7 (none : Cell) with
                | none => .error b3
                | some b4 => .ok b4
        else .ok b
      else .ok b

/-- The promotion block of move_piece together with promote_pawn: when the
source square still holds a pawn and the destination rank is 7 or 0, the
destination square is overwritten with a fresh Queen whose colour is read
from the piece currently on the destination square (the captured piece).
An empty destination raises (None has no colour attribute); the error
carries the board unchanged by this block. -/
def promo_exec (b : Board) (x y endx endy : Int) : Except Board Board :=
  match bGet b x y with
  | none => .error b
  | some c =>
    if is_pawn_cell c then
      if endx = 7 ∨ endx = 0 then
        match bGet b endx endy with
        | none => .error b
        | some dc =>
          match dc with
          | none => .error b
          | some q =>
            match bSet b endx endy (some ⟨PKind.queen, q.colour, true⟩) with
            | none => .error b
            | some b2 => .ok b2
      else .ok b
    else .ok b

/-- The scoring loop of the automatic black reply inside move_piece: every
candidate is tried on a fresh clone, kept only when black is not left in
check there, and the first strictly best evaluate_move score wins.  The
outer none models an exception escaping to the move_piece handler. -/
def auto_best (mc : Int) (b : Board) :
    List (Int × Int × Int × Int) → Option (Int × (Int × Int × Int × Int)) →
    Option (Option (Int × Int × Int × Int))
  | [], best => some (best.map (fun p => p.2))
  | m :: rest, best =>
    match clone8 b with
    | none => none
    | some t0 =>
      match bGet t0 m.1 m.2.1 with
      | none => none
      | some movingT =>
        match bSet t0 m.2.2.1 m.2.2.2 movingT with
        | none => none
        | some t1 =>
          match bSet t1 m.1 m.2.1 (none : Cell) with
          | none => none
          | some t2 =>
            if check_position t2 .black == 0 then
              match evaluate_move mc b m .black with
              | none => none
              | some score =>
                match best with
                | none => auto_best mc b rest (some (score, m))
                | some (bs, bmv) =>
                  if bs < score then auto_best mc b rest (some (score, m))
                  else auto_best mc b rest (some (bs, bmv))
            else auto_best mc b rest best

/-- The automatic black move block at the end of move_piece: runs only when
the side to move has just become black, enumerates every candidate move of
every black piece, scores them, and replays the best one through the
recursive continuation; with or without a reply the call returns True. -/
def auto_reply (rec : CState → Int → Int → Int → Int → Bool × CState)
    (s : CState) : Bool × CState :=
  match scan64 s.board with
  | none => (false, s)
  | some cells =>
    let bmoves := cells.flatMap (fun c =>
      match c.2 with
      | some p =>
        if p.colour = Colour.black then
          (get_valid_moves s.board c.1.1 c.1.2).map (fun m =>
            (c.1.1, c.1.2, m.1, m.2))
        else []
      | none => [])
    match auto_best s.move_count s.board bmoves none with
    | none => (false, s)
    | some none => (true, s)
    | some (some bm) => (true, (rec s bm.1 bm.2.1 bm.2.2.1 bm.2.2.2).2)

/-- The mutation phase of move_piece, entered after every validation has
passed: en passant removal, castling relocation, promotion, material and
move count update, the move itself, the turn switch, and the automatic
black reply.  Failures return False with the state as mutated so far, as
the catch-all handler of the source does. -/
def move_exec (rec : CState → Int → Int → Int → Int → Bool × CState)
    (s : CState) (x y endx endy : Int) (is_enp : Bool) (is_cas : Option Side)
    (captured : Cell) : Bool × CState :=
  match enp_removal s.board x y endx endy is_enp with
  | none => (false, s)
  | some b1 =>
    match castle_exec b1 x y endx endy is_cas with
    | .error bm => (false, { s with board := bm })
    | .ok b2 =>
      match promo_exec b2 x y endx endy with
      | .error bm => (false, { s with board := bm })
      | .ok b3 =>
        let mat : Int :=
          match captured with
          | some cp => s.material + weight cp.kind
          | none => s.material
        let mc := s.move_count + 1
        match bGet b3 x y with
        | none => (false, { s with board := b3, material := mat, move_count := mc })
        | some pieceCell =>
          match bSet b3 endx endy pieceCell with
          | none => (false, { s with board := b3, material := mat, move_count := mc })
          | some b4 =>
            match bSet b4 x y (none : Cell) with
            | none => (false, { s with board := b4, material := mat, move_count := mc })
            | some b5 =>
              let s2 : CState :=
                { board := b5, player_turn := flip_turn s.player_turn,
                  move_count := mc, material := mat }
              if s2.player_turn = Colour.black then auto_reply rec s2
              else (true, s2)

/-- The validation phase of ChessBoard.move_piece: every early False return
(no piece, wrong colour, the gate over candidate moves with its en passant
and castling bypasses, a failed clone, and the hypothetical self-check
test) leaves the state untouched, so it is modelled as none; the successful
gate hands the two special-rule flags and the captured cell to the
execution phase. -/
def move_gate (s : CState) (x y endx endy : Int) :
    Option (Bool × Option Side × Cell) :=
  match bGet s.board x y with
  | none => none
  | some none => none
  | some (some p) =>
    if p.colour ≠ s.player_turn then none
    else
      let is_enp := enpesaunt s.board x y p.colour
      let is_cas := castling s.board p.colour
      let vm := get_valid_moves s.board x y
      if (endx, endy) ∉ vm ∧ is_enp = false ∧ is_cas = none then none
      else
        match clone8 s.board with
        | none => none
        | some temp0 =>
          match bGet temp0 endx endy with
          | none => none
          | some captured =>
            match bGet temp0 x y with
            | none => none
            | some movingT =>
              match bSet temp0 endx endy movingT with
              | none => none
              | some temp1 =>
                match bSet temp1 x y (none : Cell) with
                | none => none
                | some temp2 =>
                  if 0 < check_position temp2 s.player_turn then none
                  else some (is_enp, is_cas, captured)

/-- ChessBoard.move_piece: the validation phase, then the mutation phase.
The fuel bounds the recursion of the automatic black reply; the reply flips
the turn to white, so its own reply block never fires and a fuel of 2
replays the source exactly (fuel 0 is unreachable from move_piece_run).
False results carry the state exactly as the source leaves it, including
the partial mutations its catch-all handler keeps. -/
def move_piece : Nat → CState → Int → Int → Int → Int → Bool × CState
  | 0, s, _, _, _, _ => (false, s)
  | fuel + 1, s, x, y, endx, endy =>
    match move_gate s x y endx endy with
    | none => (false, s)
    | some g => move_exec (move_piece fuel) s x y endx endy g.1 g.2.1 g.2.2

/-- The entry point every caller of the source uses: enough fuel for the
one bounded automatic reply. -/
def move_piece_run (s : CState) (x y endx endy : Int) : Bool × CState :=
  move_piece 2 s x y endx endy

/-- The six position-bonus tables of eval_board.py, row by row. -/
def pawn_bonus : List (List Int) :=
  [[0, 0, 0, 0, 0, 0, 0, 0],
   [5, 10, 10, -20, -20, 10, 10, 5],
   [5, -5, -10, 0, 0, -10, -5, 5],
   [0, 0, 0, 20, 20, 0, 0, 0],
   [5, 5, 10, 25, 25, 10, 5, 5],
   [10, 10, 20, 30, 30, 20, 10, 10],
   [50, 50, 50, 50, 50, 50, 50, 50],
   [0, 0, 0, 0, 0, 0, 0, 0]]

def knight_bonus : List (List Int) :=
  [[-50, -40, -30, -30, -30, -30, -40, -50],
   [-40, -20, 0, 0, 0, 0, -20, -40],
   [-30, 0, 10, 15, 15, 10, 0, -30],
   [-30, 5, 15, 20, 20, 15, 5, -30],
   [-30, 0, 15, 20, 20, 15, 0, -30],
   [-30, 5, 10, 15, 15, 10, 5, -30],
   [-40, -20, 0, 5, 5, 0, -20, -40],
   [-50, -40, -30, -30, -30, -30, -40, -50]]

def bishop_bonus : List (List Int) :=
  [[-20, -10, -10, -10, -10, -10, -10, -20],
   [-10, 0, 0, 0, 0, 0, 0, -10],
   [-10, 0, 5, 10, 10, 5, 0, -10],
   [-10, 5, 5, 10, 10, 5, 5, -10],
   [-10, 0, 10, 10, 10, 10, 0, -10],
   [-10, 10, 10, 10, 10, 10, 10, -10],
   [-10, 5, 0, 0, 0, 0, 5, -10],
   [-20, -10, -10, -10, -10, -10, -10, -20]]

def rook_bonus : List (List Int) :=
  [[0, 0, 0, 0, 0, 0, 0, 0],
   [5, 10, 10, 10, 10, 10, 10, 5],
   [-5, 0, 0, 0, 0, 0, 0, -5],
   [-5, 0, 0, 0, 0, 0, 0, -5],
   [-5, 0, 0, 0, 0, 0, 0, -5],
   [-5, 0, 0, 0, 0, 0, 0, -5],
   [-5, 0, 0, 0, 0, 0, 0, -5],
   [0, 0, 0, 5, 5, 0, 0, 0]]

def queen_bonus : List (List Int) :=
  [[-20, -10, -10, -5, -5, -10, -10, -20],
   [-10, 0, 0, 0, 0, 0, 0, -10],
   [-10, 0, 5, 5, 5, 5, 0, -10],
   [-5, 0, 5, 5, 5, 5, 0, -5],
   [0, 0, 5, 5, 5, 5, 0, -5],
   [-10, 5, 5, 5, 5, 5, 0, -10],
   [-10, 0, 5, 0, 0, 0, 0, -10],
   [-20, -10, -10, -5, -5, -10, -10, -20]]

def king_bonus : List (List Int) :=
  [[-30, -40, -40, -50, -50, -40, -40, -30],
   [-30, -40, -40, -50, -50, -40, -40, -30],
   [-30, -40, -40, -50, -50, -40, -40, -30],
   [-30, -40, -40, -50, -50, -40, -40, -30],
   [-20, -30, -30, -40, -40, -30, -30, -20],
   [-10, -20, -20, -20, -20, -20, -20, -10],
   [20, 20, 0, 0, 0, 0, 20, 20],
   [20, 30, 10, 0, 0, 10, 30, 20]]

/-- Table lookup table[i][j]; the evaluator only indexes inside 0..7. -/
def tb (t : List (List Int)) (i j : Int) : Int :=
  (((pyGet t i).getD []).get? j.toNat).getD 0

/-- The per-cell contribution of eval_board.py: base value, the bonus table
of the kind (indexed by the raw coordinates for both colours, as in the
source), the development bonus for minor pieces off the home rank, and the
center-control bonus for the 4x4 middle. -/
def eval_cell (i j : Int) (p : Piece) : Int :=
  let base := weight p.kind
  let bonus :=
    match p.kind with
    | .pawn => tb pawn_bonus i j
    | .knight =>
      tb knight_bonus i j +
        (if p.colour = .white ∧ 0 < i then 10
         else if p.colour = .black ∧ i < 7 then 10 else 0)
    | .bishop =>
      tb bishop_bonus i j +
        (if p.colour = .white ∧ 0 < i then 10
         else if p.colour = .black ∧ i < 7 then 10 else 0)
    | .rook => tb rook_bonus i j
    | .queen => tb queen_bonus i j
    | .king => tb king_bonus i j
  let center := if 2 ≤ i ∧ i ≤ 5 ∧ 2 ≤ j ∧ j ≤ 5 then 15 else 0
  base + bonus + center

/-- The integer score eval_board of eval_board.py computes before its final
normalisation branch: white and black totals over the grid, the difference
signed for the asked perspective.  A malformed board (wrong length, or a
row the reads raise on) scores 0 through the handlers of the source. -/
def eval_board_score (b : Board) (player_colour : Colour) : Int :=
  if b.length ≠ 8 then 0
  else
    match scan64 b with
    | none => 0
    | some cells =>
      let white_score := cells.foldl (fun acc c =>
        match c.2 with
        | some p => if p.colour = .white then acc + eval_cell c.1.1 c.1.2 p else acc
        | none => acc) (0 : Int)
      let black_score := cells.foldl (fun acc c =>
        match c.2 with
        | some p => if p.colour = .black then acc + eval_cell c.1.1 c.1.2 p else acc
        | none => acc) (0 : Int)
      if player_colour = .white then white_score - black_score
      else black_score - white_score

/-- eval_board of eval_board.py: the integer score, divided by 40000 only
when the normalised flag is set, else returned as is. -/
def eval_board (b : Board) (player_colour : Colour) (score_normalised : Bool) : ℚ :=
  if score_normalised then (eval_board_score b player_colour : ℚ) / 40000
  else (eval_board_score b player_colour : ℚ)

/-- ChessGameAdapter.get_reward on a state value: 1 when the opponent of
the perspective is reported checkmated, -1 when the perspective is, and
otherwise the raw (non-normalised) eval_board score divided by 100. -/
def get_reward (b : Board) (is_white : Bool) : ℚ :=
  if b.length ≠ 8 ∨ b.any (fun row => row.length ≠ 8) then 0
  else if are_you_in_check b (if is_white then .black else .white) = 2 then 1
  else if are_you_in_check b (if is_white then .white else .black) = 2 then -1
  else eval_board b (if is_white then .white else .black) false / 100

/-- ChessGameAdapter.get_legal_moves on a state value: every candidate
destination of every piece of the side to move, with no check filtering of
any kind; row-major over the grid, in generation order per piece. -/
def get_legal_moves (b : Board) (turn : Colour) :
    List ((Int × Int) × (Int × Int)) :=
  coords8.flatMap (fun c =>
    match cellAt b c.1 c.2 with
    | some p =>
      if p.colour = turn then
        (get_valid_moves b c.1 c.2).map (fun m => (c, m))
      else []
    | none => [])

/-- GameState of game_state.py: a board snapshot paired with the side to
move (a string in the source, the two values of which this Colour models). -/
structure GameState where
  board : Board
  player_turn : Colour

def kindName : PKind → String
  | .pawn => "Pawn"
  | .knight => "Knight"
  | .bishop => "Bishop"
  | .rook => "Rook"
  | .queen => "Queen"
  | .king => "King"

def colourName : Colour → String
  | .white => "white"
  | .black => "black"

/-- The cell comparison of GameState eq: both empty, or same class name and
same colour string. -/
def cellEqPy (c d : Cell) : Bool :=
  match c, d with
  | none, none => true
  | some p, some q =>
    kindName p.kind == kindName q.kind && colourName p.colour == colourName q.colour
  | _, _ => false

/-- Row comparison of GameState eq: same length and pointwise cellEqPy. -/
def rowEqPy : List Cell → List Cell → Bool
  | [], [] => true
  | c :: cs, d :: ds => cellEqPy c d && rowEqPy cs ds
  | _, _ => false

/-- Board comparison of GameState eq: same shape and pointwise cellEqPy,
exactly the length checks and the nested loops of the source. -/
def boardsEqPy : Board → Board → Bool
  | [], [] => true
  | r :: rs, t :: ts => rowEqPy r t && boardsEqPy rs ts
  | _, _ => false

/-- GameState eq of game_state.py: boards compare by piece class name and
colour per cell, then the turns compare. -/
def gsEq (a b : GameState) : Bool :=
  boardsEqPy a.board b.board && decide (a.player_turn = b.player_turn)

/-- The board_repr string GameState hash builds: a dot for an empty cell,
else the first letter of the class name (conflating King and Knight) and
the first letter of the colour. -/
def cellRepr (c : Cell) : String :=
  match c with
  | none => "."
  | some p => (kindName p.kind).take 1 ++ (colourName p.colour).take 1

def rowRepr (r : List Cell) : String :=
  r.foldl (fun acc c => acc ++ cellRepr c) ""

def boardRepr (b : Board) : String :=
  b.foldl (fun acc r => acc ++ rowRepr r) ""

/-- The string GameState hash hashes: board_repr plus the turn string.
Python hash is a pure function of this string, so equal keys give equal
hash values. -/
def gsHashKey (g : GameState) : String :=
  boardRepr g.board ++ colourName g.player_turn

/-
  The MCTS engine.  In the source the authoritative board grid is a Python
  list object; the root GameState of MCTS.run holds that very object (no
  copy), while every adapter call deep-copies before mutating.  To make
  that aliasing provable the grids live in an explicit heap (a list of
  boards addressed by index); a deep copy is an allocation at a fresh
  index, and the only write of the whole search goes to the index
  ChessGameAdapter.apply_move has just allocated.
-/

abbrev BoardHeap := List Board

def heapGet (h : BoardHeap) (r : Nat) : Board := (h.get? r).getD []

def heapAlloc (h : BoardHeap) (b : Board) : Nat × BoardHeap := (h.length, h ++ [b])

def heapSet (h : BoardHeap) (r : Nat) (b : Board) : BoardHeap := h.set r b

/-- The ChessBoard object the adapter wraps: the grid by reference, the
scalar attributes directly (nothing in the search ever assigns to them). -/
structure CBoard where
  boardRef : Nat
  player_turn : Colour
  move_count : Int
  material : Int

/-- GameState as the search passes it around: the board field is a plain
reference, so constructing one performs no copy. -/
structure GS where
  boardRef : Nat
  player_turn : Colour

/-- ChessGameAdapter.is_terminal: deep-copies the wrapped ChessBoard (an
allocation), rebinds the copy to the state grid and asks game_over, which
only reads. -/
def adapter_is_terminal (cb : CBoard) (h : BoardHeap) (s : GS) :
    Bool × BoardHeap :=
  (game_over (heapGet h s.boardRef), (heapAlloc h (heapGet h cb.boardRef)).2)

/-- ChessGameAdapter.get_legal_moves: a deep copy of the wrapped board (an
allocation), then the pure enumeration over the state grid. -/
def adapter_get_legal_moves (cb : CBoard) (h : BoardHeap) (s : GS) :
    List ((Int × Int) × (Int × Int)) × BoardHeap :=
  (get_legal_moves (heapGet h s.boardRef) s.player_turn,
    (heapAlloc h (heapGet h cb.boardRef)).2)

/-- ChessGameAdapter.get_reward: a deep copy of the wrapped board (an
allocation), then the pure reward over the state grid. -/
def adapter_get_reward (cb : CBoard) (h : BoardHeap) (s : GS) (is_white : Bool) :
    ℚ × BoardHeap :=
  (get_reward (heapGet h s.boardRef) is_white,
    (heapAlloc h (heapGet h cb.boardRef)).2)

/-- ChessGameAdapter.apply_move: clones the state (a fresh allocation),
validates bounds, presence, colour and membership in the candidate moves,
then performs the two cell writes on the fresh clone only; None on any
rejection. -/
def adapter_apply_move (h : BoardHeap) (s : GS)
    (m : (Int × Int) × (Int × Int)) : Option GS × BoardHeap :=
  let alloc := heapAlloc h (heapGet h s.boardRef)
  let r := alloc.1
  let h1 := alloc.2
  if ¬ (onBoard m.1.1 m.1.2 && onBoard m.2.1 m.2.2) then (none, h1)
  else
    match cellAt (heapGet h1 r) m.1.1 m.1.2 with
    | none => (none, h1)
    | some piece =>
      if piece.colour ≠ s.player_turn then (none, h1)
      else if ¬ decide (m.2 ∈ get_valid_moves (heapGet h1 r) m.1.1 m.1.2) then
        (none, h1)
      else
        match bSet (heapGet h1 r) m.2.1 m.2.2 (some piece) with
        | none => (none, h1)
        | some b1 =>
          match bSet b1 m.1.1 m.1.2 (none : Cell) with
          | none => (none, h1)
          | some b2 => (some ⟨r, flip_turn s.player_turn⟩, heapSet h1 r b2)

/-- An MCTS tree node, arena style: children and parent are indices. -/
structure MNode where
  state : GS
  move : Option ((Int × Int) × (Int × Int))
  parent : Option Nat
  children : List Nat
  visits : Nat
  value : ℚ

abbrev Arena := List MNode

/-- MCTS.backpropagate: walks the parent chain adding the reward and a
visit at every node; the chain is strictly descending, so the arena size
bounds it. -/
def backpropagate : Nat → Arena → Option Nat → ℚ → Arena
  | 0, a, _, _ => a
  | fuel + 1, a, idx?, reward =>
    match idx? with
    | none => a
    | some i =>
      match a.get? i with
      | none => a
      | some nd =>
        backpropagate fuel
          (a.set i { nd with visits := nd.visits + 1, value := nd.value + reward })
          nd.parent reward

/-- The outcome of the child scan inside MCTS.select. -/
inductive ChildPick where
  | ret (i : Nat)
  | best (i : Nat)
  | nobest

/-- The for-loop of MCTS.select: an unvisited child is returned from the
whole selection at once; otherwise the strictly best UCT child is kept.
The square root and logarithm of the source are floating point; they enter
as oracle parameters, which every theorem quantifies over. -/
def select_children (sqrtO logO : ℚ → ℚ) (w : ℚ) (a : Arena) (pvisits : Nat) :
    List Nat → Option (ℚ × Nat) → ChildPick
  | [], best =>
    match best with
    | some p => .best p.2
    | none => .nobest
  | ci :: rest, best =>
    match a.get? ci with
    | none => select_children sqrtO logO w a pvisits rest best
    | some child =>
      if child.visits = 0 then .ret ci
      else
        let exploit := child.value / (child.visits : ℚ)
        let explore := w * sqrtO (2 * logO ((pvisits : ℚ)) / (child.visits : ℚ))
        let uct := exploit + explore
        match best with
        | none => select_children sqrtO logO w a pvisits rest (some (uct, ci))
        | some (bv, bi) =>
          if bv < uct then select_children sqrtO logO w a pvisits rest (some (uct, ci))
          else select_children sqrtO logO w a pvisits rest (some (bv, bi))

/-- MCTS.select: descends while the current node has children. -/
def select (sqrtO logO : ℚ → ℚ) (w : ℚ) (a : Arena) : Nat → Nat → Nat
  | 0, cur => cur
  | fuel + 1, cur =>
    match a.get? cur with
    | none => cur
    | some nd =>
      if nd.children = [] then cur
      else
        match select_children sqrtO logO w a nd.visits nd.children none with
        | .ret i => i
        | .nobest => cur
        | .best i => select sqrtO logO w a fuel i

/-- The child-creation loop shared by the root expansion and the in-loop
expansion of MCTS.run: one adapter apply_move per move, a new node per
successful state, appended to the children of the parent. -/
def expand_children (parentIdx : Nat) (s : GS) :
    List ((Int × Int) × (Int × Int)) → Arena → BoardHeap → Arena × BoardHeap
  | [], a, h => (a, h)
  | mv :: rest, a, h =>
    let ap := adapter_apply_move h s mv
    match ap.1 with
    | none => expand_children parentIdx s rest a ap.2
    | some ns =>
      let childIdx := a.length
      let a2 := a ++ [⟨ns, some mv, some parentIdx, [], 0, 0⟩]
      let a3 :=
        match a2.get? parentIdx with
        | some pn => a2.set parentIdx { pn with children := pn.children ++ [childIdx] }
        | none => a2
      expand_children parentIdx s rest a3 ap.2

/-- The rollout loop of MCTS.simulate: up to 30 plies of uniformly random
moves through the adapter, stopping at a terminal state, an empty move
list, or a rejected move.  randF is the injected random stream, consuming
one value per choice. -/
def rollout (cb : CBoard) (randF : Nat → Nat) :
    Nat → GS → BoardHeap → Nat → GS × BoardHeap × Nat
  | 0, cur, h, k => (cur, h, k)
  | fuel + 1, cur, h, k =>
    let t := adapter_is_terminal cb h cur
    if t.1 then (cur, t.2, k)
    else
      let lm := adapter_get_legal_moves cb t.2 cur
      match lm.1 with
      | [] => (cur, lm.2, k)
      | ms =>
        let mv := (ms.get? (randF k % ms.length)).getD ((0, 0), (0, 0))
        let ap := adapter_apply_move lm.2 cur mv
        match ap.1 with
        | none => (cur, ap.2, k + 1)
        | some ns => rollout cb randF fuel ns ap.2 (k + 1)

/-- MCTS.simulate: the rollout followed by get_reward from the perspective
of the searching side. -/
def simulate (cb : CBoard) (randF : Nat → Nat) (is_white : Bool) (h : BoardHeap)
    (k : Nat) (s : GS) : ℚ × BoardHeap × Nat :=
  let r := rollout cb randF 30 s h k
  let rw := adapter_get_reward cb r.2.1 r.1 is_white
  (rw.1, rw.2, r.2.2)

/-- MCTS.best_move: the first root child with the maximal visit count. -/
def best_move (a : Arena) : Option ((Int × Int) × (Int × Int)) :=
  match a.get? 0 with
  | none => none
  | some root =>
    if root.children = [] then none
    else
      let best := root.children.foldl (fun acc ci =>
        match a.get? ci with
        | none => acc
        | some c =>
          match acc with
          | none => some (c.visits, c.move)
          | some (bv, bm) =>
            if bv < c.visits then some (c.visits, c.move) else some (bv, bm)) none
      match best with
      | some (_, m) => m
      | none => none

/-- The iteration loop of MCTS.run: the cooperative time check at the top,
selection, the (unreachable, as in the source) expansion of a node that
already has children, the random simulation child, the rollout and the
backpropagation.  timeUp is the injected clock. -/
def mcts_iter (cb : CBoard) (sqrtO logO : ℚ → ℚ) (w : ℚ) (timeUp : Nat → Bool)
    (randF : Nat → Nat) (is_white : Bool) :
    Nat → Nat → Arena → BoardHeap → Nat → Arena × BoardHeap × Nat
  | 0, _, a, h, k => (a, h, k)
  | n + 1, i, a, h, k =>
    if timeUp i then (a, h, k)
    else
      let leaf := select sqrtO logO w a a.length 0
      let step1 : Arena × BoardHeap :=
        match a.get? leaf with
        | none => (a, h)
        | some nd =>
          if nd.children ≠ [] then
            let t := adapter_is_terminal cb h nd.state
            if ¬ t.1 then
              let lm := adapter_get_legal_moves cb t.2 nd.state
              expand_children leaf nd.state lm.1 a lm.2
            else (a, t.2)
          else (a, h)
      let a1 := step1.1
      let h1 := step1.2
      let pick : Nat × Nat :=
        match a1.get? leaf with
        | some nd2 =>
          if nd2.children ≠ [] then
            ((nd2.children.get? (randF k % nd2.children.length)).getD leaf, k + 1)
          else (leaf, k)
        | none => (leaf, k)
      let simIdx := pick.1
      let sstate :=
        match a1.get? simIdx with
        | some nd3 => nd3.state
        | none => GS.mk 0 .white
      let sim := simulate cb randF is_white h1 pick.2 sstate
      let a2 := backpropagate (a1.length + 1) a1 (some simIdx) sim.1
      mcts_iter cb sqrtO logO w timeUp randF is_white n (i + 1) a2 sim.2.1 sim.2.2

/-- What MCTS.run leaves behind: the chosen move, the tree, the heap, and
the adapter ChessBoard (whose attributes nothing in the search assigns). -/
structure RunResult where
  best : Option ((Int × Int) × (Int × Int))
  arena : Arena
  heap : BoardHeap
  cb : CBoard

/-- MCTS.run: the root GameState holds the authoritative grid by reference
(no copy), the root is expanded through the adapter, the iteration loop
runs, and the most visited root child gives the move. -/
def mcts_run (sqrtO logO : ℚ → ℚ) (w : ℚ) (timeUp : Nat → Bool)
    (randF : Nat → Nat) (iterations : Nat) (is_white : Bool) (cb : CBoard)
    (h : BoardHeap) : RunResult :=
  let rootState : GS := ⟨cb.boardRef, if is_white then .white else .black⟩
  let a0 : Arena := [⟨rootState, none, none, [], 0, 0⟩]
  let lm := adapter_get_legal_moves cb h rootState
  let e := expand_children 0 rootState lm.1 a0 lm.2
  let it := mcts_iter cb sqrtO logO w timeUp randF is_white iterations 0 e.1 e.2 0
  ⟨best_move it.1, it.1, it.2.1, cb⟩

/-
  Claim theorems.
-/

def HeapExt (h h2 : BoardHeap) : Prop :=
  h.length ≤ h2.length ∧ ∀ i, i < h.length → h2.get? i = h.get? i

/-- The cell the board clone of move_piece sees on the destination square,
read exactly as captured_piece is (clone first, then the wrapped lookup). -/
def captured_at (b : Board) (ex ey : Int) : Option Cell :=
  (clone8 b).bind (fun t => bGet t ex ey)

/-- The material increment of move_piece: the weight of the captured cell. -/
def cell_weight (c : Cell) : Int :=
  match c with
  | some cp => weight cp.kind
  | none => 0

/-- The material increment an accepted move applies, phrased over the
original board. -/
def captured_weight (b : Board) (ex ey : Int) : Int :=
  match captured_at b ex ey with
  | some c => cell_weight c
  | none => 0

def c6wBoard : Board :=
  put (put (put emptyBoard 6 0 .pawn .black false) 0 7 .king .white true)
    7 7 .king .black true

def c6wState : CState := ⟨c6wBoard, .black, 4, 2⟩

def c1Board : Board :=
  put (put (put (put (put (put emptyBoard
    0 5 .rook .white true) 3 3 .pawn .white true) 1 5 .pawn .white true)
    7 0 .king .white true) 4 5 .king .black true) 3 4 .pawn .black true

def c1State : CState := ⟨c1Board, .black, 0, 0⟩

def c2Board : Board :=
  put (put (put (put (put emptyBoard 7 3 .king .black true) 7 0 .rook .black true)
    4 4 .knight .black true) 0 7 .king .white true) 7 7 .rook .black true

def c2State : CState := ⟨c2Board, .black, 0, 0⟩

def c3Board : Board :=
  put (put (put (put emptyBoard 7 3 .king .black true) 7 7 .rook .black true)
    5 3 .bishop .white true) 0 0 .king .white true

def c3State : CState := ⟨c3Board, .black, 0, 0⟩

def c4Board : Board :=
  put (put (put (put (put (put emptyBoard
    0 0 .king .white true) 1 0 .pawn .white false) 1 1 .pawn .white false)
    0 5 .rook .black true) 7 7 .king .black true) 4 3 .rook .white true

def c4After : Option Board :=
  (line_assign c4Board 0 3 4 3).bind (fun b1 => bSet b1 4 3 (none : Cell))

def c5Board : Board :=
  put (put (put emptyBoard 7 7 .king .black true) 6 6 .queen .white true)
    5 5 .king .white true

def c6Board : Board :=
  put (put (put emptyBoard 1 0 .pawn .white true) 0 7 .king .white true)
    7 7 .king .black true

def c6State : CState := ⟨c6Board, .white, 0, 0⟩

def c7Board : Board :=
  put (put (put (put emptyBoard 1 2 .pawn .black false) 0 3 .rook .white true)
    7 7 .king .black true) 0 0 .king .white true

def c7State : CState := ⟨c7Board, .black, 0, 0⟩

def c8Board : Board :=
  put (put (put emptyBoard 3 4 .queen .white true) 0 0 .king .white true)
    7 7 .king .black true

def c9wBoard : Board :=
  put (put emptyBoard 0 0 .king .white true) 7 7 .king .black true

def c9wCB : CBoard := ⟨0, .white, 0, -1⟩

def c10a : GameState := ⟨[[some ⟨.king, .white, true⟩, none]], .white⟩

def c10b : GameState := ⟨[[some ⟨.king, .white, false⟩, none]], .white⟩

theorem hext_refl (h : BoardHeap) : HeapExt h h := ⟨le_refl _, fun _ _ => rfl⟩

theorem hext_trans {h1 h2 h3 : BoardHeap} (a : HeapExt h1 h2) (b : HeapExt h2 h3) :
    HeapExt h1 h3 :=
  ⟨le_trans a.1 b.1, fun i hi => (b.2 i (lt_of_lt_of_le hi a.1)).trans (a.2 i hi)⟩

theorem hext_append (h : BoardHeap) (l : List Board) : HeapExt h (h ++ l) := by
  refine ⟨by simp, fun i hi => ?_⟩
  simp [List.get?_eq_getElem?, List.getElem?_append_left hi]

theorem hext_set_fresh (h : BoardHeap) (b c : Board) :
    HeapExt h ((h ++ [b]).set h.length c) := by
  refine ⟨by simp, fun i hi => ?_⟩
  rw [List.get?_set_ne c (h ++ [b]) (show h.length ≠ i by omega)]
  simp [List.get?_eq_getElem?, List.getElem?_append_left hi]

theorem adapter_is_terminal_hext (cb : CBoard) (h : BoardHeap) (s : GS) :
    HeapExt h (adapter_is_terminal cb h s).2 :=
  hext_append h _

theorem adapter_get_legal_moves_hext (cb : CBoard) (h : BoardHeap) (s : GS) :
    HeapExt h (adapter_get_legal_moves cb h s).2 :=
  hext_append h _

theorem adapter_get_reward_hext (cb : CBoard) (h : BoardHeap) (s : GS) (w : Bool) :
    HeapExt h (adapter_get_reward cb h s w).2 :=
  hext_append h _

theorem adapter_apply_move_hext (h : BoardHeap) (s : GS)
    (m : (Int × Int) × (Int × Int)) : HeapExt h (adapter_apply_move h s m).2 := by
  unfold adapter_apply_move heapAlloc heapSet
  dsimp only
  split
  · exact hext_append h _
  · split
    · exact hext_append h _
    · split
      · exact hext_append h _
      · split
        · exact hext_append h _
        · split
          · exact hext_append h _
          · split
            · exact hext_append h _
            · exact hext_set_fresh h _ _

theorem expand_children_hext (p : Nat) (s : GS) (ms : List ((Int × Int) × (Int × Int))) :
    ∀ (a : Arena) (h : BoardHeap), HeapExt h (expand_children p s ms a h).2 := by
  induction ms with
  | nil => intro a h; exact hext_refl h
  | cons mv rest ih =>
    intro a h
    unfold expand_children
    dsimp only
    split
    · exact hext_trans (adapter_apply_move_hext h s mv) (ih _ _)
    · exact hext_trans (adapter_apply_move_hext h s mv) (ih _ _)

theorem rollout_hext (cb : CBoard) (randF : Nat → Nat) (fuel : Nat) :
    ∀ (cur : GS) (h : BoardHeap) (k : Nat),
      HeapExt h (rollout cb randF fuel cur h k).2.1 := by
  induction fuel with
  | zero => intro cur h k; exact hext_refl h
  | succ n ih =>
    intro cur h k
    unfold rollout
    dsimp only
    split
    · exact adapter_is_terminal_hext cb h cur
    · have h1 := adapter_is_terminal_hext cb h cur
      split
      · exact hext_trans h1 (adapter_get_legal_moves_hext cb _ cur)
      · have h2 := hext_trans h1 (adapter_get_legal_moves_hext cb _ cur)
        split
        · exact hext_trans h2 (adapter_apply_move_hext _ cur _)
        · exact hext_trans (hext_trans h2 (adapter_apply_move_hext _ cur _)) (ih _ _ _)

theorem simulate_hext (cb : CBoard) (randF : Nat → Nat) (w : Bool) (h : BoardHeap)
    (k : Nat) (s : GS) : HeapExt h (simulate cb randF w h k s).2.1 := by
  unfold simulate
  dsimp only
  exact hext_trans (rollout_hext cb randF 30 s h k)
    (adapter_get_reward_hext cb _ _ w)

theorem mcts_iter_hext (cb : CBoard) (sqrtO logO : ℚ → ℚ) (w : ℚ)
    (timeUp : Nat → Bool) (randF : Nat → Nat) (iw : Bool) (n : Nat) :
    ∀ (i : Nat) (a : Arena) (h : BoardHeap) (k : Nat),
      HeapExt h (mcts_iter cb sqrtO logO w timeUp randF iw n i a h k).2.1 := by
  induction n with
  | zero => intro i a h k; exact hext_refl h
  | succ n ih =>
    intro i a h k
    unfold mcts_iter
    dsimp only
    split
    · exact hext_refl h
    · refine hext_trans ?_ (ih _ _ _ _)
      refine hext_trans ?_ (simulate_hext cb randF iw _ _ _)
      split
      · exact hext_refl h
      · split
        · rename_i nd heq hne
          split
          · exact hext_trans (adapter_is_terminal_hext cb h nd.state)
              (hext_trans (adapter_get_legal_moves_hext cb _ nd.state)
                (expand_children_hext _ _ _ _ _))
          · exact adapter_is_terminal_hext cb h nd.state
        · exact hext_refl h

theorem mcts_run_hext (sqrtO logO : ℚ → ℚ) (w : ℚ) (timeUp : Nat → Bool)
    (randF : Nat → Nat) (iterations : Nat) (iw : Bool) (cb : CBoard)
    (h : BoardHeap) :
    HeapExt h (mcts_run sqrtO logO w timeUp randF iterations iw cb h).heap := by
  unfold mcts_run
  dsimp only
  exact hext_trans (adapter_get_legal_moves_hext cb h _)
    (hext_trans (expand_children_hext _ _ _ _ _)
      (mcts_iter_hext _ _ _ _ _ _ _ _ _ _ _ _))

theorem move_gate_captured (s : CState) (x y endx endy : Int)
    (g : Bool × Option Side × Cell)
    (hg : move_gate s x y endx endy = some g) :
    captured_at s.board endx endy = some g.2.2 := by
  unfold move_gate at hg
  repeat' split at hg
  all_goals simp_all [captured_at]
  all_goals rw [← hg.2]

theorem move_exec_black (rec : CState → Int → Int → Int → Int → Bool × CState)
    (s : CState) (x y endx endy : Int) (is_enp : Bool) (is_cas : Option Side)
    (captured : Cell) (hturn : s.player_turn = .black)
    (hacc : (move_exec rec s x y endx endy is_enp is_cas captured).1 = true) :
    (move_exec rec s x y endx endy is_enp is_cas captured).2.move_count
        = s.move_count + 1 ∧
      (move_exec rec s x y endx endy is_enp is_cas captured).2.player_turn = .white ∧
      (move_exec rec s x y endx endy is_enp is_cas captured).2.material
        = s.material + cell_weight captured := by
  obtain ⟨b, pt, mc, mat⟩ := s
  simp only at hturn
  subst hturn
  obtain ⟨ok, s2, hres⟩ :
      ∃ ok s2, move_exec rec ⟨b, .black, mc, mat⟩ x y endx endy is_enp is_cas captured
        = (ok, s2) := ⟨_, _, rfl⟩
  rw [hres] at hacc ⊢
  simp only at hacc
  subst hacc
  unfold move_exec at hres
  repeat' split at hres
  all_goals try simp at hres
  all_goals rw [show flip_turn Colour.black = Colour.white from rfl] at hres
  all_goals rw [if_neg (by decide)] at hres
  all_goals injection hres with hok hs2
  all_goals rw [← hs2]
  all_goals simp [cell_weight]

/-- Claim C6 (amended): for every accepted move whose mover is black (so
that the automatic reply block cannot fire), the ply counter advances by
exactly one, the side to move flips exactly once to white, and the material
differential grows by the weight of the piece the clone saw on the
destination square (unchanged when that square was empty). -/
theorem move_piece_black_effects (s : CState) (x y endx endy : Int)
    (hturn : s.player_turn = .black)
    (hacc : (move_piece_run s x y endx endy).1 = true) :
    (move_piece_run s x y endx endy).2.move_count = s.move_count + 1 ∧
      (move_piece_run s x y endx endy).2.player_turn = .white ∧
      (move_piece_run s x y endx endy).2.material
        = s.material + captured_weight s.board endx endy := by
  obtain ⟨ok, s2, hres⟩ :
      ∃ ok s2, move_piece_run s x y endx endy = (ok, s2) := ⟨_, _, rfl⟩
  rw [hres] at hacc ⊢
  simp only at hacc
  subst hacc
  unfold move_piece_run move_piece at hres
  rcases hg : move_gate s x y endx endy with _ | g
  · rw [hg] at hres
    simp at hres
  · rw [hg] at hres
    dsimp only at hres
    have hacc2 : (move_exec (move_piece 1) s x y endx endy g.1 g.2.1 g.2.2).1 = true := by
      rw [hres]
    have h3 := move_exec_black (move_piece 1) s x y endx endy g.1 g.2.1 g.2.2 hturn hacc2
    rw [hres] at h3
    have hcap := move_gate_captured s x y endx endy g hg
    refine ⟨h3.1, h3.2.1, ?_⟩
    rw [h3.2.2]
    unfold captured_weight
    rw [hcap]

/-- Witness for the amended claim C6 at a concrete accepted black move. -/
theorem move_piece_black_effects_witness :
    c6wState.player_turn = .black ∧
      (move_piece_run c6wState 6 0 5 0).1 = true ∧
      ((move_piece_run c6wState 6 0 5 0).2.move_count = c6wState.move_count + 1 ∧
        (move_piece_run c6wState 6 0 5 0).2.player_turn = .white ∧
        (move_piece_run c6wState 6 0 5 0).2.material
          = c6wState.material + captured_weight c6wState.board 5 0) :=
  ⟨by decide, by decide,
    move_piece_black_effects c6wState 6 0 5 0 (by decide) (by decide)⟩

/-- Claim C1: refuted on the code.  The hypothetical self-check filter tests
the naive move on a clone, but the en passant block then deletes a further
pawn from the real board; here black plays the double step (3,4) to (1,4),
the white pawn on (1,5) is removed, move_piece returns true, and the
resulting position has the black king on (4,5) in check from the white rook
on (0,5): check_position reports 1 on the very board move_piece accepted. -/
theorem move_piece_en_passant_leaves_check :
    enpesaunt c1Board 3 4 .black = true ∧
      (move_piece_run c1State 3 4 1 4).1 = true ∧
      check_position (move_piece_run c1State 3 4 1 4).2.board .black = 1 := by
  refine ⟨by decide, by decide, by decide⟩

/-- Claim C2: refuted on the code.  With queenside castling available for
black, the gate of move_piece accepts any destination: the black knight on
(4,4) moves to (4,5), a square not among its candidate moves, the board is
mutated, and true is returned. -/
theorem move_piece_castling_bypass_accepts_illegal_destination :
    ((4 : Int), (5 : Int)) ∉ get_valid_moves c2Board 4 4 ∧
      castling c2Board .black = some .queenside ∧
      (move_piece_run c2State 4 4 4 5).1 = true ∧
      (move_piece_run c2State 4 4 4 5).2.board ≠ c2Board := by
  refine ⟨by decide, by decide, by decide, by decide⟩

/-- Claim C3: refuted on the code.  Kingside castling is reported available
for black although the white bishop on (5,3) attacks the transit square
(7,5) of the unmoved king on (7,3), and move_piece accepts the castling
move to (7,6): the attacked-square part of the castling rule is absent. -/
theorem castling_through_attacked_square_accepted :
    castling c3Board .black = some .kingside ∧
      ((7 : Int), (5 : Int)) ∈ get_valid_moves c3Board 5 3 ∧
      (move_piece_run c3State 7 3 7 6).1 = true := by
  refine ⟨by decide, by decide, by decide⟩

/-- Claim C4: refuted on the code.  The white king on (0,0) is checked by
the black rook on (0,5); the white rook on (4,3) can interpose on (0,3) and
the position after that block is no longer check, yet are_you_in_check
reports checkmate: is_checkmate only tries captures of the attacker and
king moves, never interpositions. -/
theorem is_checkmate_ignores_interposition :
    are_you_in_check c4Board .white = 2 ∧
      ((0 : Int), (3 : Int)) ∈ get_valid_moves c4Board 4 3 ∧
      c4After.map (fun t => check_position t .white) = some 0 := by
  refine ⟨by decide, by decide, by decide⟩

/-- Claim C5: refuted on the code.  In the King plus Queen against lone
King mate, is_checkmate does return true, but the adapter get_legal_moves
still returns the three candidate king moves of the mated side (it performs
no check filtering), so the sequence is not empty. -/
theorem mate_position_legal_moves_nonempty :
    is_checkmate c5Board .black (7, 7) = true ∧
      are_you_in_check c5Board .black = 2 ∧
      get_legal_moves c5Board .black ≠ [] := by
  refine ⟨by decide, by decide, by decide⟩

/-- Claim C6: counterexample.  After the accepted white pawn move (1,0) to
(2,0) the automatic black reply block plays a second move inside the same
call: the ply counter ends at 2 rather than 1 and the side to move is white
again rather than flipped once to black. -/
theorem move_piece_auto_reply_double_advance :
    (move_piece_run c6State 1 0 2 0).1 = true ∧
      (move_piece_run c6State 1 0 2 0).2.move_count = 2 ∧
      (move_piece_run c6State 1 0 2 0).2.player_turn = .white := by
  refine ⟨by decide, by decide, by decide⟩

/-- Claim C7: refuted on the code.  The black pawn on (1,2) captures the
white rook on (0,3), reaching the back rank; promote_pawn writes a Queen of
the captured piece colour to the destination and the final move then
overwrites it with the pawn itself, so after the accepted move the
destination square holds the original black pawn, not a Queen. -/
theorem promotion_leaves_pawn_on_back_rank :
    (move_piece_run c7State 1 2 0 3).1 = true ∧
      bGet (move_piece_run c7State 1 2 0 3).2.board 0 3
        = some (some ⟨PKind.pawn, Colour.black, false⟩) := by
  refine ⟨by decide, by decide⟩

/-- Claim C8: refuted on the code.  With a bare extra white queen and no
checkmate on the board, get_reward returns the raw evaluation divided by
100 rather than the normalised score: the value 87 / 10 lies far outside
the unit interval. -/
theorem get_reward_exceeds_unit_bound :
    get_reward c8Board true = 87 / 10 ∧ (1 : ℚ) < get_reward c8Board true := by
  have hscore : eval_board_score c8Board .white = 870 := by decide
  have hval : get_reward c8Board true = 87 / 10 := by
    unfold get_reward
    rw [if_neg (by decide), if_neg (by decide), if_neg (by decide)]
    unfold eval_board
    rw [if_neg (by decide)]
    rw [if_pos rfl, hscore]
    norm_num
  exact ⟨hval, by rw [hval]; norm_num⟩

/-- Claim C9: the whole search never touches the authoritative board.  For
every oracle instantiation of the floating point functions, the clock and
the random stream, every iteration budget and every perspective, the board
grid the wrapped ChessBoard references is identical after mcts_run, and the
ChessBoard attribute record the search received is returned untouched. -/
theorem mcts_run_preserves_authoritative_board (sqrtO logO : ℚ → ℚ) (w : ℚ)
    (timeUp : Nat → Bool) (randF : Nat → Nat) (iterations : Nat) (iw : Bool)
    (cb : CBoard) (h : BoardHeap) (href : cb.boardRef < h.length) :
    (mcts_run sqrtO logO w timeUp randF iterations iw cb h).heap.get? cb.boardRef
        = h.get? cb.boardRef ∧
      (mcts_run sqrtO logO w timeUp randF iterations iw cb h).cb = cb :=
  ⟨(mcts_run_hext sqrtO logO w timeUp randF iterations iw cb h).2 cb.boardRef href,
    rfl⟩

/-- Witness for claim C9 at a concrete two-king board and one iteration. -/
theorem mcts_run_preserves_authoritative_board_witness :
    c9wCB.boardRef < [c9wBoard].length ∧
      ((mcts_run (fun _ => 0) (fun _ => 0) (141 / 100) (fun _ => false) (fun _ => 0)
            1 true c9wCB [c9wBoard]).heap.get? c9wCB.boardRef
          = [c9wBoard].get? c9wCB.boardRef ∧
        (mcts_run (fun _ => 0) (fun _ => 0) (141 / 100) (fun _ => false) (fun _ => 0)
            1 true c9wCB [c9wBoard]).cb = c9wCB) :=
  ⟨by decide,
    mcts_run_preserves_authoritative_board _ _ _ _ _ _ _ _ _ (by decide)⟩

theorem cellEqPy_repr {c d : Cell} (h : cellEqPy c d = true) :
    cellRepr c = cellRepr d := by
  cases c with
  | none =>
    cases d with
    | none => rfl
    | some q => simp [cellEqPy] at h
  | some p =>
    cases d with
    | none => simp [cellEqPy] at h
    | some q =>
      simp only [cellEqPy, Bool.and_eq_true, beq_iff_eq] at h
      simp [cellRepr, h.1, h.2]

theorem rowRepr_congr : ∀ (r t : List Cell), rowEqPy r t = true →
    ∀ acc : String,
      r.foldl (fun a c => a ++ cellRepr c) acc
        = t.foldl (fun a c => a ++ cellRepr c) acc
  | [], [], _, _ => rfl
  | c :: cs, d :: ds, h, acc => by
    simp only [rowEqPy, Bool.and_eq_true] at h
    simp only [List.foldl_cons]
    rw [cellEqPy_repr h.1]
    exact rowRepr_congr cs ds h.2 _
  | [], _ :: _, h, _ => by simp [rowEqPy] at h
  | _ :: _, [], h, _ => by simp [rowEqPy] at h

theorem boardRepr_congr : ∀ (b c : Board), boardsEqPy b c = true →
    ∀ acc : String,
      b.foldl (fun a r => a ++ rowRepr r) acc
        = c.foldl (fun a r => a ++ rowRepr r) acc
  | [], [], _, _ => rfl
  | r :: rs, t :: ts, h, acc => by
    simp only [boardsEqPy, Bool.and_eq_true] at h
    simp only [List.foldl_cons]
    rw [show rowRepr r = rowRepr t from rowRepr_congr r t h.1 ""]
    exact boardRepr_congr rs ts h.2 _
  | [], _ :: _, h, _ => by simp [boardsEqPy] at h
  | _ :: _, [], h, _ => by simp [boardsEqPy] at h

/-- Claim C10: two GameState values equal under the eq of the source (same
piece class and colour in every cell, same side to move) build the same
hash input string, even though that string abbreviates class names to their
first letter; Python hash being a pure function of the string, equal states
hash equally and are safe as dictionary keys. -/
theorem gsEq_hashKey (a b : GameState) (h : gsEq a b = true) :
    gsHashKey a = gsHashKey b := by
  simp only [gsEq, Bool.and_eq_true, decide_eq_true_eq] at h
  unfold gsHashKey boardRepr
  rw [boardRepr_congr a.board b.board h.1 "", h.2]

/-- Witness for claim C10: two states differing only in a first_move flag
are equal under the source eq and share the hash key. -/
theorem gsEq_hashKey_witness :
    gsEq c10a c10b = true ∧ gsHashKey c10a = gsHashKey c10b :=
  ⟨by decide, gsEq_hashKey c10a c10b (by decide)⟩
